import Mathlib

/-!
Verification of the sudo-profiles-js client core against its specification.

The development shallowly embeds the TypeScript sources:
* `src/security/aesSecurityProvider.ts` (`AesSecurityProvider.encrypt/decrypt`),
* `src/core/key-manager.ts` (`DefaultKeyManager`),
* `src/sudo/sudo-profiles-client.ts` (`DefaultSudoProfilesClient`),
* `src/sudo/SubscriptionManager.ts` (`SubscriptionManager`),
* `src/global/error.ts` (`graphQLErrorsToClientError`).

Bytes are `List Nat`.  JavaScript `Map`/`Record` objects are association
lists with JS insertion-order semantics (`alSet` replaces in place or
appends, `alRemove` filters).  Asynchronous code is sequential in this
client (one awaited call at a time), so `async` methods become pure
functions that thread state explicitly and return `Except` for thrown
errors.  Platform primitives (WebCrypto `crypto.subtle` AES-CBC, the
random generator, S3, the GraphQL backend) are oracles: parameters of the
embedded functions, constrained only by their documented contracts.
-/

/-- The typed failures of the client (`src/global/error.ts` plus the
`@sudoplatform/sudo-common` error classes used by the client).  Message
payloads are dropped: only the error's identity matters to the claims. -/
inductive ProfilesError where
  | illegalArgument
  | illegalState
  | notSignedIn
  | fatal
  | keyStoreException
  | sudoNotFound
  | versionMismatch
  | policyError
  | serviceError
  | unknownGraphQL
  | uploadError
  | downloadError
  | deleteError
  deriving DecidableEq, Repr

/-! ## Association lists with JavaScript `Map`/plain-object semantics -/

/-- `Map.get` / object read: first (unique) binding of the key. -/
def alGet {α : Type} : List (String × α) → String → Option α
  | [], _ => none
  | (k', v) :: t, k => if k' = k then some v else alGet t k

/-- `Map.set` / object write: replace the binding in place if the key is
present, otherwise append (JS insertion-order semantics). -/
def alSet {α : Type} : List (String × α) → String → α → List (String × α)
  | [], k, v => [(k, v)]
  | (k', v') :: t, k, v =>
      if k' = k then (k, v) :: t else (k', v') :: alSet t k v

/-- `Map.delete` / `delete obj[k]`: drop every binding of the key. -/
def alRemove {α : Type} : List (String × α) → String → List (String × α)
  | [], _ => []
  | (k', v) :: t, k => if k' = k then alRemove t k else (k', v) :: alRemove t k

theorem alGet_alSet_self {α : Type} (l : List (String × α)) (k : String) (v : α) :
    alGet (alSet l k v) k = some v := by
  induction l with
  | nil => simp [alGet, alSet]
  | cons h t ih =>
      obtain ⟨k', v'⟩ := h
      by_cases hk : k' = k
      · simp [alGet, alSet, hk]
      · simp [alGet, alSet, hk, ih]

theorem alGet_alRemove_self {α : Type} (l : List (String × α)) (k : String) :
    alGet (alRemove l k) k = none := by
  induction l with
  | nil => simp [alGet, alRemove]
  | cons h t ih =>
      obtain ⟨k', v'⟩ := h
      by_cases hk : k' = k
      · simpa [alRemove, hk] using ih
      · simpa [alRemove, alGet, hk] using ih

theorem alGet_alRemove_ne {α : Type} (l : List (String × α)) (k k' : String)
    (h : k' ≠ k) : alGet (alRemove l k) k' = alGet l k' := by
  induction l with
  | nil => simp [alGet, alRemove]
  | cons hd t ih =>
      obtain ⟨k₀, v₀⟩ := hd
      by_cases hk : k₀ = k
      · subst hk
        have hne : ¬ k₀ = k' := fun hh => h hh.symm
        simp [alRemove, alGet, hne, ih]
      · by_cases hk' : k₀ = k'
        · simp [alRemove, alGet, hk, hk', h]
        · simp [alRemove, alGet, hk, hk', ih]

theorem mem_alSet {α : Type} {l : List (String × α)} {k : String} {v : α}
    {p : String × α} (h : p ∈ alSet l k v) : p = (k, v) ∨ p ∈ l := by
  induction l with
  | nil => simpa [alSet] using h
  | cons hd t ih =>
      obtain ⟨k', v'⟩ := hd
      by_cases hk : k' = k
      · simp only [alSet, hk, if_pos rfl] at h
        rcases List.mem_cons.mp h with h1 | h1
        · exact Or.inl h1
        · exact Or.inr (List.mem_cons_of_mem _ h1)
      · simp only [alSet, if_neg hk] at h
        rcases List.mem_cons.mp h with h1 | h1
        · exact Or.inr (h1 ▸ List.mem_cons_self _ _)
        · rcases ih h1 with h2 | h2
          · exact Or.inl h2
          · exact Or.inr (List.mem_cons_of_mem _ h2)

/-! ## Text and base64 codecs

`TextEncoder`/`TextDecoder` serialize a JS string to bytes and back;
`Base64` (src/utils/base64.ts) is a bijection between byte arrays and
their base64 text.  The claims only use that both are inverses, so the
embedding keeps the byte sequence itself as the carrier: a string is
serialized as its list of code points, and a base64 string is identified
with the byte list it denotes (fields named `base64Data` below hold those
bytes). -/

/-- `TextEncoder().encode`, modelled as the list of code points. -/
def utf8Encode (s : String) : List Nat := s.data.map Char.toNat

/-- `TextDecoder().decode` on a byte buffer (inverse of `utf8Encode`;
invalid code points decode to the replacement behaviour of `Char.ofNat`). -/
def utf8Decode (bs : List Nat) : String := String.mk (bs.map Char.ofNat)

theorem utf8Decode_utf8Encode (s : String) : utf8Decode (utf8Encode s) = s := by
  cases s with
  | mk data =>
      simp only [utf8Decode, utf8Encode, List.map_map]
      congr 1
      calc data.map (Char.ofNat ∘ Char.toNat)
          = data.map id := List.map_congr_left (fun c _ => by
            simp [Char.ofNat_toNat])
        _ = data := List.map_id data

/-! ## AES-CBC with PKCS7 padding (`src/security/aesSecurityProvider.ts`)

`crypto.subtle` with algorithm name `AES-CBC` is CBC mode with PKCS7
padding over the AES block permutation (block size 16).  The block
permutation itself is a platform primitive, embedded as an oracle: any
keyed permutation of 16-byte blocks. -/

/-- The AES block permutation oracle used by `crypto.subtle`: a keyed
length-preserving permutation of blocks, with `dec` inverting `enc`. -/
structure BlockCipher where
  enc : List Nat → List Nat → List Nat
  dec : List Nat → List Nat → List Nat
  enc_length : ∀ k b, (enc k b).length = b.length
  dec_enc : ∀ k b, dec k (enc k b) = b

/-- `AesSecurityProvider.ivSize`. -/
def ivSize : Nat := 16

/-- PKCS7 padding: append `p` copies of `p` where `p = 16 - len % 16`. -/
def pkcs7Pad (data : List Nat) : List Nat :=
  data ++ List.replicate (ivSize - data.length % ivSize) (ivSize - data.length % ivSize)

/-- PKCS7 unpadding: the last byte gives the pad length to strip. -/
def pkcs7Unpad (data : List Nat) : List Nat :=
  data.take (data.length - data.getLastD 0)

/-- Split a byte list into 16-byte blocks (fuel-structured so that it
computes by kernel reduction; the fuel is the list length). -/
def toBlocksAux : Nat → List Nat → List (List Nat)
  | _, [] => []
  | 0, l => [l]
  | fuel + 1, l => l.take ivSize :: toBlocksAux fuel (l.drop ivSize)

def toBlocks (l : List Nat) : List (List Nat) := toBlocksAux l.length l

/-- Bytewise XOR of two equal-length buffers. -/
def xorBytes (a b : List Nat) : List Nat := List.zipWith (fun x y => x ^^^ y) a b

/-- CBC encryption of a block list: each plaintext block is XORed with the
previous ciphertext block (initially the IV) before the block cipher. -/
def cbcEnc (C : BlockCipher) (k : List Nat) : List Nat → List (List Nat) → List (List Nat)
  | _, [] => []
  | prev, b :: bs =>
      let c := C.enc k (xorBytes b prev)
      c :: cbcEnc C k c bs

/-- CBC decryption of a block list. -/
def cbcDec (C : BlockCipher) (k : List Nat) : List Nat → List (List Nat) → List (List Nat)
  | _, [] => []
  | prev, c :: cs => xorBytes (C.dec k c) prev :: cbcDec C k c cs

/-- `crypto.subtle.encrypt({name: 'AES-CBC', iv}, key, data)`. -/
def subtleEncrypt (C : BlockCipher) (key iv data : List Nat) : List Nat :=
  (cbcEnc C key iv (toBlocks (pkcs7Pad data))).flatten

/-- `crypto.subtle.decrypt({name: 'AES-CBC', iv}, key, data)`. -/
def subtleDecrypt (C : BlockCipher) (key iv data : List Nat) : List Nat :=
  pkcs7Unpad (cbcDec C key iv (toBlocks data)).flatten

/-- The key store backing `DefaultKeyManager` (`src/core/key-store.ts`
`Store`): raw byte values indexed by string ids.  It holds both the
symmetric keys (by key id) and the current-key alias entry. -/
abbrev Store := List (String × List Nat)

theorem length_xorBytes (a b : List Nat) :
    (xorBytes a b).length = min a.length b.length := by
  simp [xorBytes]

theorem xorBytes_cancel (a b : List Nat) (h : a.length = b.length) :
    xorBytes (xorBytes a b) b = a := by
  induction a generalizing b with
  | nil => cases b <;> simp [xorBytes]
  | cons x xs ih =>
      cases b with
      | nil => simp at h
      | cons y ys =>
          simp only [List.length_cons, Nat.succ.injEq] at h
          simp [xorBytes, Nat.xor_cancel_right]
          exact ih ys h

theorem pkcs7Pad_length_mod (data : List Nat) :
    (pkcs7Pad data).length % ivSize = 0 := by
  simp only [pkcs7Pad, ivSize, List.length_append, List.length_replicate]
  omega


theorem pkcs7Unpad_pkcs7Pad (data : List Nat) :
    pkcs7Unpad (pkcs7Pad data) = data := by
  have hmod : data.length % ivSize < ivSize := Nat.mod_lt _ (by simp [ivSize])
  have hp : 1 ≤ ivSize - data.length % ivSize := by omega
  set p := ivSize - data.length % ivSize with hpdef
  have hrep : List.replicate p p = List.replicate (p - 1) p ++ [p] := by
    have h2 : List.replicate ((p - 1) + 1) p = List.replicate (p - 1) p ++ [p] :=
      List.replicate_succ' (p - 1) p
    rwa [show (p - 1) + 1 = p from by omega] at h2
  have hlast : (pkcs7Pad data).getLastD 0 = p := by
    rw [pkcs7Pad, ← hpdef, hrep, ← List.append_assoc]
    simp
  have hlen : (pkcs7Pad data).length = data.length + p := by
    simp [pkcs7Pad, ← hpdef]
  unfold pkcs7Unpad
  rw [hlast, hlen, Nat.add_sub_cancel, pkcs7Pad, ← hpdef]
  exact List.take_left data _

theorem toBlocksAux_flatten (fuel : Nat) :
    ∀ l : List Nat, l.length ≤ fuel → (toBlocksAux fuel l).flatten = l := by
  induction fuel with
  | zero =>
      intro l hl
      cases l with
      | nil => simp [toBlocksAux]
      | cons x xs => simp at hl
  | succ n ih =>
      intro l hl
      cases l with
      | nil => simp [toBlocksAux]
      | cons x xs =>
          simp only [toBlocksAux, List.flatten_cons]
          rw [ih ((x :: xs).drop ivSize) (by simp [ivSize] at hl ⊢; omega)]
          exact List.take_append_drop _ _

theorem toBlocks_flatten (l : List Nat) : (toBlocks l).flatten = l :=
  toBlocksAux_flatten l.length l le_rfl

theorem toBlocksAux_mem_length (fuel : Nat) :
    ∀ l : List Nat, l.length ≤ fuel → l.length % ivSize = 0 →
      ∀ b ∈ toBlocksAux fuel l, b.length = ivSize := by
  induction fuel with
  | zero =>
      intro l hl _ b hb
      cases l with
      | nil => simp [toBlocksAux] at hb
      | cons x xs => simp at hl
  | succ n ih =>
      intro l hl hm b hb
      cases l with
      | nil => simp [toBlocksAux] at hb
      | cons x xs =>
          have hpos : 0 < (x :: xs).length := by simp
          have hge : ivSize ≤ (x :: xs).length := by
            rcases Nat.lt_or_ge (x :: xs).length ivSize with h | h
            · exact absurd (Nat.mod_eq_of_lt h ▸ hm) (by omega)
            · exact h
          simp only [toBlocksAux, List.mem_cons] at hb
          rcases hb with hb | hb
          · subst hb
            simp only [List.length_take, List.length_cons] at hge ⊢
            omega
          · refine ih _ ?_ ?_ b hb
            · simp only [List.length_drop, List.length_cons, ivSize] at hl ⊢
              omega
            · simp only [List.length_drop, List.length_cons, ivSize] at hm hge ⊢
              omega

theorem toBlocks_mem_length (l : List Nat) (hm : l.length % ivSize = 0) :
    ∀ b ∈ toBlocks l, b.length = ivSize :=
  toBlocksAux_mem_length l.length l le_rfl hm

theorem toBlocksAux_flatten_blocks (bs : List (List Nat))
    (hb : ∀ b ∈ bs, b.length = ivSize) :
    ∀ fuel, bs.flatten.length ≤ fuel → toBlocksAux fuel bs.flatten = bs := by
  induction bs with
  | nil => intro fuel _; cases fuel <;> simp [toBlocksAux]
  | cons b rest ih =>
      intro fuel hfuel
      have hblen : b.length = ivSize := hb b (List.mem_cons_self _ _)
      have hbne : b ++ rest.flatten ≠ [] := by
        intro h
        have := congrArg List.length h
        simp [hblen, ivSize] at this
      cases fuel with
      | zero =>
          exfalso
          simp only [List.flatten_cons, List.length_append, hblen, ivSize,
            Nat.le_zero] at hfuel
          omega
      | succ n =>
          simp only [List.flatten_cons]
          obtain ⟨y, ys, hyys⟩ : ∃ y ys, b ++ rest.flatten = y :: ys := by
            cases hcase : b ++ rest.flatten with
            | nil => exact absurd hcase hbne
            | cons y ys => exact ⟨y, ys, rfl⟩
          rw [hyys]
          rw [show toBlocksAux (n + 1) (y :: ys)
              = (y :: ys).take ivSize :: toBlocksAux n ((y :: ys).drop ivSize)
            from rfl]
          rw [← hyys]
          have htake : (b ++ rest.flatten).take ivSize = b := by
            rw [← hblen]; exact List.take_left b _
          have hdrop : (b ++ rest.flatten).drop ivSize = rest.flatten := by
            rw [← hblen]; exact List.drop_left b _
          rw [htake, hdrop]
          congr 1
          refine ih (fun x hx => hb x (List.mem_cons_of_mem _ hx)) n ?_
          simp only [List.flatten_cons, List.length_append, hblen, ivSize] at hfuel ⊢
          omega

theorem toBlocks_flatten_blocks (bs : List (List Nat))
    (hb : ∀ b ∈ bs, b.length = ivSize) : toBlocks bs.flatten = bs :=
  toBlocksAux_flatten_blocks bs hb _ le_rfl

theorem cbcEnc_mem_length (C : BlockCipher) (k : List Nat) :
    ∀ (bs : List (List Nat)) (prev : List Nat), prev.length = ivSize →
      (∀ b ∈ bs, b.length = ivSize) →
      ∀ c ∈ cbcEnc C k prev bs, c.length = ivSize := by
  intro bs
  induction bs with
  | nil => intro prev _ _ c hc; simp [cbcEnc] at hc
  | cons b rest ih =>
      intro prev hprev hbs c hc
      have hb : b.length = ivSize := hbs b (List.mem_cons_self _ _)
      have hc0 : (C.enc k (xorBytes b prev)).length = ivSize := by
        rw [C.enc_length, length_xorBytes, hb, hprev]
        simp
      simp only [cbcEnc, List.mem_cons] at hc
      rcases hc with hc | hc
      · exact hc ▸ hc0
      · exact ih _ hc0 (fun x hx => hbs x (List.mem_cons_of_mem _ hx)) c hc

theorem cbcDec_cbcEnc (C : BlockCipher) (k : List Nat) :
    ∀ (bs : List (List Nat)) (prev : List Nat), prev.length = ivSize →
      (∀ b ∈ bs, b.length = ivSize) →
      cbcDec C k prev (cbcEnc C k prev bs) = bs := by
  intro bs
  induction bs with
  | nil => intro prev _ _; simp [cbcEnc, cbcDec]
  | cons b rest ih =>
      intro prev hprev hbs
      have hb : b.length = ivSize := hbs b (List.mem_cons_self _ _)
      have hc0 : (C.enc k (xorBytes b prev)).length = ivSize := by
        rw [C.enc_length, length_xorBytes, hb, hprev]
        simp
      simp only [cbcEnc, cbcDec, C.dec_enc, List.cons.injEq]
      exact ⟨xorBytes_cancel b prev (hb.trans hprev.symm),
        ih _ hc0 (fun x hx => hbs x (List.mem_cons_of_mem _ hx))⟩

/-- Round trip of the WebCrypto AES-CBC oracle model. -/
theorem subtleDecrypt_subtleEncrypt (C : BlockCipher) (key iv data : List Nat)
    (hiv : iv.length = ivSize) :
    subtleDecrypt C key iv (subtleEncrypt C key iv data) = data := by
  have hpadblocks : ∀ b ∈ toBlocks (pkcs7Pad data), b.length = ivSize :=
    toBlocks_mem_length _ (pkcs7Pad_length_mod data)
  have hctblocks : ∀ c ∈ cbcEnc C key iv (toBlocks (pkcs7Pad data)), c.length = ivSize :=
    cbcEnc_mem_length C key _ iv hiv hpadblocks
  unfold subtleDecrypt subtleEncrypt
  rw [toBlocks_flatten_blocks _ hctblocks,
    cbcDec_cbcEnc C key _ iv hiv hpadblocks,
    toBlocks_flatten, pkcs7Unpad_pkcs7Pad]

/-! ## `AesSecurityProvider` (src/security/aesSecurityProvider.ts)

`SecurityProviderBase.getSymmetricKey` reads the raw key from the key
manager's store and throws `KeyStoreException` when it is absent.
`encrypt` draws a fresh 16-byte IV from `generateRandomData(ivSize)` —
embedded as the `iv` argument, which the platform guarantees has exactly
`ivSize` bytes — and returns `Buffer.concat(encrypted, iv)`; `decrypt`
splits the trailing `ivSize` bytes off as the IV. -/

def getSymmetricKey (st : Store) (keyId : String) : Except ProfilesError (List Nat) :=
  match alGet st keyId with
  | none => .error .keyStoreException
  | some k => .ok k

def AesSecurityProvider.encrypt (C : BlockCipher) (st : Store) (keyId : String)
    (iv data : List Nat) : Except ProfilesError (List Nat) :=
  match getSymmetricKey st keyId with
  | .error e => .error e
  | .ok key => .ok (subtleEncrypt C key iv data ++ iv)

def AesSecurityProvider.decrypt (C : BlockCipher) (st : Store) (keyId : String)
    (data : List Nat) : Except ProfilesError (List Nat) :=
  match getSymmetricKey st keyId with
  | .error e => .error e
  | .ok key =>
      let encryptedData := data.take (data.length - ivSize)
      let iv := data.drop (data.length - ivSize)
      .ok (subtleDecrypt C key iv encryptedData)

/-- Helper: decrypting `ciphertext || iv` under a registered key recovers
the plaintext (shared by the round-trip results below). -/
theorem aesDecrypt_subtleEncrypt_append_iv (C : BlockCipher) (st : Store)
    (keyId : String) (k iv data : List Nat)
    (hk : alGet st keyId = some k) (hiv : iv.length = ivSize) :
    AesSecurityProvider.decrypt C st keyId (subtleEncrypt C k iv data ++ iv)
      = .ok data := by
  have hgk : getSymmetricKey st keyId = .ok k := by
    simp [getSymmetricKey, hk]
  have hsplit : (subtleEncrypt C k iv data ++ iv).length - ivSize
      = (subtleEncrypt C k iv data).length := by
    simp [List.length_append, hiv]
  simp only [AesSecurityProvider.decrypt, hgk, hsplit]
  rw [List.take_left, List.drop_left]
  exact congrArg Except.ok (subtleDecrypt_subtleEncrypt C k iv data hiv)

/-- C1: For every key id whose key bytes are present in the Key Registry
and every plaintext byte string, `encrypt` produces AES-CBC/PKCS7
ciphertext with the freshly generated 16-byte IV appended after the
ciphertext (layout `ciphertext || iv`), and `decrypt`, given that output,
splits off the trailing 16 bytes as the IV and recovers exactly the
original plaintext: `decrypt(keyId, encrypt(keyId, x)) = ok x`. -/
theorem aes_encrypt_decrypt_roundtrip (C : BlockCipher) (st : Store)
    (keyId : String) (k iv data : List Nat)
    (hk : alGet st keyId = some k) (hiv : iv.length = ivSize) :
    AesSecurityProvider.encrypt C st keyId iv data
        = .ok (subtleEncrypt C k iv data ++ iv)
    ∧ (subtleEncrypt C k iv data ++ iv).drop
        ((subtleEncrypt C k iv data ++ iv).length - ivSize)
        = iv
    ∧ AesSecurityProvider.decrypt C st keyId (subtleEncrypt C k iv data ++ iv)
        = .ok data := by
  have hgk : getSymmetricKey st keyId = .ok k := by
    simp [getSymmetricKey, hk]
  have hsplit : (subtleEncrypt C k iv data ++ iv).length - ivSize
      = (subtleEncrypt C k iv data).length := by
    simp [List.length_append, hiv]
  refine ⟨?_, ?_, ?_⟩
  · simp [AesSecurityProvider.encrypt, hgk]
  · rw [hsplit]
    exact List.drop_left _ _
  · exact aesDecrypt_subtleEncrypt_append_iv C st keyId k iv data hk hiv

/-- A concrete block-cipher oracle (the identity permutation) used to
instantiate witnesses. -/
def idBlockCipher : BlockCipher where
  enc := fun _ b => b
  dec := fun _ b => b
  enc_length := fun _ _ => rfl
  dec_enc := fun _ _ => rfl

/-- Witness for C1 at a concrete registry, key, IV and plaintext. -/
theorem aes_encrypt_decrypt_roundtrip_witness :
    alGet [("k1", [20, 169])] "k1" = some [20, 169]
    ∧ (List.replicate 16 3).length = ivSize
    ∧ AesSecurityProvider.decrypt idBlockCipher [("k1", [20, 169])] "k1"
        (subtleEncrypt idBlockCipher [20, 169] (List.replicate 16 3) [72, 111]
          ++ List.replicate 16 3)
        = .ok [72, 111] :=
  ⟨by decide, by decide,
    (aes_encrypt_decrypt_roundtrip idBlockCipher [("k1", [20, 169])] "k1"
      [20, 169] (List.replicate 16 3) [72, 111] (by decide) (by decide)).2.2⟩

/-! ## `DefaultKeyManager` (src/core/key-manager.ts) -/

def KEY_NAME_SYMMETRIC_KEY_ID : String := "symmetricKeyId"

/-- `setSymmetricKeyId`: stores the UTF-8 encoding of the key id under the
alias entry. -/
def DefaultKeyManager.setSymmetricKeyId (st : Store) (keyId : String) : Store :=
  alSet st KEY_NAME_SYMMETRIC_KEY_ID (utf8Encode keyId)

/-- `insertKey`: stores the raw key bytes under the key id. -/
def DefaultKeyManager.insertKey (st : Store) (keyId : String) (value : List Nat) : Store :=
  alSet st keyId value

/-- `getKey`. -/
def DefaultKeyManager.getKey (st : Store) (keyId : String) : Option (List Nat) :=
  alGet st keyId

/-- `getSymmetricKeyId`: reads the alias entry — possibly `undefined` —
and passes it to `TextDecoder().decode`, whose result is always a string
(`decode(undefined)` is `""`).  The declared TS return type
`string | undefined` is `Option String`; the body always injects via
`some`. -/
def DefaultKeyManager.getSymmetricKeyId (st : Store) : Option String :=
  some (match alGet st KEY_NAME_SYMMETRIC_KEY_ID with
    | none => ""
    | some bs => utf8Decode bs)

/-- JavaScript falsiness of a `string | undefined` value (`!keyId`):
both `undefined` and the empty string are falsy. -/
def jsFalsyStr : Option String → Bool
  | none => true
  | some s => s == ""

/-- The symmetric-key precondition gate shared by `createSudo`
(src/sudo/sudo-profiles-client.ts lines 271-274) and `updateSudo` (lines
296-299): fetch the current key id and throw `IllegalStateError` when it
is falsy. -/
def symmetricKeyGate (st : Store) : Except ProfilesError String :=
  let keyId := DefaultKeyManager.getSymmetricKeyId st
  if jsFalsyStr keyId then .error .illegalState
  else .ok (keyId.getD "")

/-- C10: `DefaultKeyManager.getSymmetricKeyId` never returns an absence
signal — when the store has no entry under `symmetricKeyId` it returns
the empty string (the text-decoding of an absent value); `createSudo` and
`updateSudo` treat this empty string as a missing key and throw
`IllegalState`; and a caller testing for `undefined` (`isSome`) rather
than falsiness would treat the key as present. -/
theorem getSymmetricKeyId_never_absent (st : Store)
    (habs : alGet st KEY_NAME_SYMMETRIC_KEY_ID = none) :
    DefaultKeyManager.getSymmetricKeyId st = some ""
    ∧ symmetricKeyGate st = .error .illegalState
    ∧ ∀ st' : Store, (DefaultKeyManager.getSymmetricKeyId st').isSome = true := by
  refine ⟨?_, ?_, ?_⟩
  · simp [DefaultKeyManager.getSymmetricKeyId, habs]
  · simp [symmetricKeyGate, DefaultKeyManager.getSymmetricKeyId, habs, jsFalsyStr]
  · intro st'
    simp [DefaultKeyManager.getSymmetricKeyId]

/-- Witness for C10 on the empty store. -/
theorem getSymmetricKeyId_never_absent_witness :
    alGet ([] : Store) KEY_NAME_SYMMETRIC_KEY_ID = none
    ∧ symmetricKeyGate ([] : Store) = .error .illegalState :=
  ⟨by decide, (getSymmetricKeyId_never_absent [] (by decide)).2.1⟩

/-! ## Claims and the secure string wire form
(src/sudo/sudo.ts, src/gen/graphql-types SecureClaimInput) -/

inductive Visibility where
  | Private
  | Public
  deriving DecidableEq, Repr

/-- `StringClaimValue` / `BlobClaimValue` (src/sudo/sudo.ts): a blob value
carries an optional URI (`value`, the cache key once persisted) and the
optional raw bytes of a pending upload (`file`). -/
inductive ClaimValue where
  | blob (value : Option String) (file : Option (List Nat))
  | str (value : Option String)
  deriving DecidableEq, Repr

structure Claim where
  name : String
  visibility : Visibility
  value : ClaimValue
  deriving DecidableEq, Repr

/-- `SecureClaimInput` (wire form of a private string claim).
`base64Data` holds the bytes denoted by the base64 text. -/
structure SecureClaimInput where
  name : String
  version : Nat
  algorithm : String
  keyId : String
  base64Data : List Nat
  deriving DecidableEq, Repr

/-- `SymmetricKeyEncryptionAlgorithm.AesCbcPkcs7Padding.toString()`. -/
def AesCbcPkcs7Padding : String := "AES/CBC/PKCS7Padding"

/-- `DefaultSudoProfilesClient.createSecureString`
(src/sudo/sudo-profiles-client.ts lines 882-904): fetches the *current*
symmetric key id, throws `FatalError` when it is falsy, encrypts the
UTF-8 bytes of the value under it and records that key id on the wire
form. -/
def createSecureString (C : BlockCipher) (st : Store) (iv : List Nat)
    (nm value : String) : Except ProfilesError SecureClaimInput :=
  let keyId := DefaultKeyManager.getSymmetricKeyId st
  if jsFalsyStr keyId then .error .fatal
  else
    match AesSecurityProvider.encrypt C st (keyId.getD "") iv (utf8Encode value) with
    | .error e => .error e
    | .ok encryptedData =>
        .ok ⟨nm, 1, AesCbcPkcs7Padding, keyId.getD "", encryptedData⟩

/-- `DefaultSudoProfilesClient.processSecureClaim`
(src/sudo/sudo-profiles-client.ts lines 906-924): decrypts a fetched
secure claim under the key id recorded on its wire form (the `keyId`
argument), never consulting the current alias. -/
def processSecureClaim (C : BlockCipher) (st : Store) (nm keyId : String)
    (base64Data : List Nat) : Except ProfilesError Claim :=
  match AesSecurityProvider.decrypt C st keyId base64Data with
  | .error e => .error e
  | .ok decryptedData =>
      .ok ⟨nm, .Private, .str (some (utf8Decode decryptedData))⟩

/-- C2: `createSecureString` encrypts under the key id currently
designated as the symmetric key id, and `processSecureClaim` decrypts
under the key id recorded on the wire form; hence a claim written while
`kid` was current still decrypts against *any* later store state `st'` —
in particular one whose current alias has rotated away from `kid` — as
long as `kid`'s key bytes remain in the registry. -/
theorem encrypt_uses_current_decrypt_uses_recorded
    (C : BlockCipher) (st st' : Store) (iv : List Nat) (nm value kid : String)
    (k : List Nat)
    (hcur : DefaultKeyManager.getSymmetricKeyId st = some kid)
    (hkid : kid ≠ "")
    (hk : alGet st kid = some k)
    (hk' : alGet st' kid = some k)
    (hiv : iv.length = ivSize) :
    ∃ input : SecureClaimInput,
      createSecureString C st iv nm value = .ok input
      ∧ input.keyId = kid
      ∧ processSecureClaim C st' nm input.keyId input.base64Data
          = .ok ⟨nm, .Private, .str (some value)⟩ := by
  refine ⟨⟨nm, 1, AesCbcPkcs7Padding, kid,
    subtleEncrypt C k iv (utf8Encode value) ++ iv⟩, ?_, rfl, ?_⟩
  · have henc : AesSecurityProvider.encrypt C st kid iv (utf8Encode value)
        = .ok (subtleEncrypt C k iv (utf8Encode value) ++ iv) := by
      simp [AesSecurityProvider.encrypt, getSymmetricKey, hk]
    simp [createSecureString, hcur, jsFalsyStr, hkid, henc]
  · simp only [processSecureClaim,
      aesDecrypt_subtleEncrypt_append_iv C st' kid k iv (utf8Encode value) hk' hiv]
    rw [utf8Decode_utf8Encode]

/-- Witness for C2: a claim encrypted while `k1` was current decrypts
after the current alias has rotated to `k2`, because `k1` is still in the
registry. -/
theorem encrypt_uses_current_decrypt_uses_recorded_witness :
    DefaultKeyManager.getSymmetricKeyId
        [(KEY_NAME_SYMMETRIC_KEY_ID, utf8Encode "k1"), ("k1", [5, 6])]
      = some "k1"
    ∧ (∃ input : SecureClaimInput,
        createSecureString idBlockCipher
            [(KEY_NAME_SYMMETRIC_KEY_ID, utf8Encode "k1"), ("k1", [5, 6])]
            (List.replicate 16 1) "firstName" "Homer" = .ok input
        ∧ input.keyId = "k1"
        ∧ processSecureClaim idBlockCipher
            [(KEY_NAME_SYMMETRIC_KEY_ID, utf8Encode "k2"), ("k1", [5, 6]), ("k2", [9])]
            "firstName" input.keyId input.base64Data
            = .ok ⟨"firstName", .Private, .str (some "Homer")⟩) :=
  ⟨by decide,
    encrypt_uses_current_decrypt_uses_recorded idBlockCipher
      [(KEY_NAME_SYMMETRIC_KEY_ID, utf8Encode "k1"), ("k1", [5, 6])]
      [(KEY_NAME_SYMMETRIC_KEY_ID, utf8Encode "k2"), ("k1", [5, 6]), ("k2", [9])]
      (List.replicate 16 1) "firstName" "Homer" "k1" [5, 6]
      (by decide) (by decide) (by decide) (by decide) (by decide)⟩

/-! ## Records ("Sudos"), change types and connection states
(src/sudo/sudo.ts, src/sudo/sudo-subscriber.ts) -/

inductive ChangeType where
  | Create
  | Update
  | Delete
  deriving DecidableEq, Repr

inductive ConnectionState where
  | Connected
  | Disconnected
  deriving DecidableEq, Repr

/-- A `Sudo` record (src/sudo/sudo.ts): identifier assigned by the backend
(absent until first create), version, timestamps (epoch ms), backend
metadata and the mutable claims map. -/
structure SudoRec where
  id : Option String
  version : Nat
  createdAt : Nat
  updatedAt : Nat
  metadata : List (String × String)
  claims : List (String × Claim)
  deriving DecidableEq, Repr

/-! ## `SubscriptionManager` (src/sudo/SubscriptionManager.ts)

Subscribers of type `α` are stored in a `Record<string, SudoSubscriber>`.
The ZenObservable watcher and subscription handles are opaque tokens
(`Option Nat`).  Each operation returns, besides the new state, whether
`subscription.unsubscribe()` was invoked on the transport, and the
notifications delivered synchronously to subscribers. -/

structure SubscriptionManager (α : Type) where
  subscribers : List (String × α)
  subscription : Option Nat
  watcher : Option Nat
  deriving DecidableEq, Repr

def SubscriptionManager.replaceSubscriber {α : Type} (m : SubscriptionManager α)
    (id : String) (s : α) : SubscriptionManager α :=
  { m with subscribers := alSet m.subscribers id s }

/-- `removeSubscriber`: deletes the id; if no subscribers remain,
unsubscribes the transport subscription (when present) and clears the
watcher and subscription handles. -/
def SubscriptionManager.removeSubscriber {α : Type} (m : SubscriptionManager α)
    (id : String) : SubscriptionManager α × Bool :=
  let subs := alRemove m.subscribers id
  if 0 < subs.length then ({ m with subscribers := subs }, false)
  else (⟨subs, none, none⟩, m.subscription.isSome)

def SubscriptionManager.removeAllSubscribers {α : Type} (m : SubscriptionManager α) :
    SubscriptionManager α × Bool :=
  (⟨[], none, none⟩, m.subscription.isSome)

/-- `sudoChanged`: notify every currently registered subscriber of the
changed record. -/
def SubscriptionManager.sudoChanged {α : Type} (m : SubscriptionManager α)
    (ct : ChangeType) (s : SudoRec) : List (α × ChangeType × SudoRec) :=
  m.subscribers.map (fun p => (p.2, ct, s))

/-- `connectionStatusChanged`: captures the subscribers to notify *before*
any teardown; on `Disconnected` removes all subscribers and clears the
transport handles (the second `subscription?.unsubscribe()` in the source
acts on the already-cleared field and is a no-op); finally notifies the
captured subscribers of the state. -/
def SubscriptionManager.connectionStatusChanged {α : Type} (m : SubscriptionManager α)
    (state : ConnectionState) :
    SubscriptionManager α × Bool × List (α × ConnectionState) :=
  let toNotify := m.subscribers.map Prod.snd
  if state = ConnectionState.Disconnected then
    let r := m.removeAllSubscribers
    (r.1, r.2 || r.1.subscription.isSome, toNotify.map (fun s => (s, state)))
  else
    (m, false, toNotify.map (fun s => (s, state)))

/-- `DefaultSudoProfilesClient.subscribe` for one change type
(src/sudo/sudo-profiles-client.ts lines 426-489): requires a signed-in
subject (`NotSignedIn` otherwise), registers the subscriber, and only
when no watcher exists opens the transport subscription (fresh handles)
and announces `Connected`.  The returned `Bool` records whether a
transport subscription was opened by this call. -/
def DefaultSudoProfilesClient.subscribe {α : Type} (signedIn : Bool)
    (m : SubscriptionManager α) (id : String) (s : α)
    (freshWatcher freshSubscription : Nat) :
    Except ProfilesError (SubscriptionManager α × Bool × List (α × ConnectionState)) :=
  if !signedIn then .error .notSignedIn
  else
    let m1 := m.replaceSubscriber id s
    match m1.watcher with
    | some _ => .ok (m1, false, [])
    | none =>
        let m2 := { m1 with watcher := some freshWatcher,
                            subscription := some freshSubscription }
        let r := m2.connectionStatusChanged ConnectionState.Connected
        .ok (r.1, true, r.2.2)

/-- The `error` callback installed by
`executeCreateSudoSubscriptionWatcher` (src/sudo/sudo-profiles-client.ts
lines 527-533): it logs and forwards `Disconnected` to the manager; the
error value is discarded and the handler has no failure channel, so the
transport error is never re-raised to the caller of `subscribe`. -/
def onSubscriptionError {α : Type} (m : SubscriptionManager α) (_e : ProfilesError) :
    SubscriptionManager α × Bool × List (α × ConnectionState) :=
  m.connectionStatusChanged ConnectionState.Disconnected

/-- The `complete` callback (lines 520-526): same teardown path. -/
def onSubscriptionComplete {α : Type} (m : SubscriptionManager α) :
    SubscriptionManager α × Bool × List (α × ConnectionState) :=
  m.connectionStatusChanged ConnectionState.Disconnected

/-- C7: registering two listeners for a change type opens exactly one
transport subscription (the second `subscribe` reuses the watcher); a
pushed event notifies both listeners with the change type and record;
removing the first listener leaves the transport subscription up;
removing the second unsubscribes it and clears the watcher, returning the
multiplexer to Idle. -/
theorem subscribe_multiplexes_one_transport {α : Type}
    (id1 id2 : String) (h : id1 ≠ id2) (s1 s2 : α) (w1 q1 w2 q2 : Nat)
    (ct : ChangeType) (sd : SudoRec) :
    DefaultSudoProfilesClient.subscribe true (⟨[], none, none⟩ : SubscriptionManager α)
        id1 s1 w1 q1
      = .ok (⟨[(id1, s1)], some q1, some w1⟩, true, [(s1, ConnectionState.Connected)])
    ∧ DefaultSudoProfilesClient.subscribe true
        (⟨[(id1, s1)], some q1, some w1⟩ : SubscriptionManager α) id2 s2 w2 q2
      = .ok (⟨[(id1, s1), (id2, s2)], some q1, some w1⟩, false, [])
    ∧ SubscriptionManager.sudoChanged
        (⟨[(id1, s1), (id2, s2)], some q1, some w1⟩ : SubscriptionManager α) ct sd
      = [(s1, ct, sd), (s2, ct, sd)]
    ∧ SubscriptionManager.removeSubscriber
        (⟨[(id1, s1), (id2, s2)], some q1, some w1⟩ : SubscriptionManager α) id1
      = (⟨[(id2, s2)], some q1, some w1⟩, false)
    ∧ SubscriptionManager.removeSubscriber
        (⟨[(id2, s2)], some q1, some w1⟩ : SubscriptionManager α) id2
      = (⟨[], none, none⟩, true) := by
  have h21 : ¬ id2 = id1 := fun hh => h hh.symm
  have h12 : ¬ id1 = id2 := h
  refine ⟨?_, ?_, ?_, ?_, ?_⟩
  · simp [DefaultSudoProfilesClient.subscribe, SubscriptionManager.replaceSubscriber,
      SubscriptionManager.connectionStatusChanged, SubscriptionManager.removeAllSubscribers,
      alSet]
  · simp [DefaultSudoProfilesClient.subscribe, SubscriptionManager.replaceSubscriber,
      alSet, h12]
  · simp [SubscriptionManager.sudoChanged]
  · simp [SubscriptionManager.removeSubscriber, alRemove, h21]
  · simp [SubscriptionManager.removeSubscriber, alRemove]

/-- Witness for C7 with two concrete listeners. -/
theorem subscribe_multiplexes_one_transport_witness :
    ("a" : String) ≠ "b"
    ∧ SubscriptionManager.removeSubscriber
        (⟨[("b", (2 : Nat))], some 1, some 0⟩ : SubscriptionManager Nat) "b"
      = (⟨[], none, none⟩, true) :=
  ⟨by decide,
    (subscribe_multiplexes_one_transport "a" "b" (by decide) (1 : Nat) 2 0 1 0 1
      ChangeType.Create ⟨none, 1, 0, 0, [], []⟩).2.2.2.2⟩

/-- C8: when the transport subscription completes or errors, every
listener registered at that moment is notified of `Disconnected`, all
listeners are removed and the transport subscription and watcher cleared
(returning to Idle); the error value never reaches the caller — both
handlers produce the same teardown regardless of the error. -/
theorem disconnect_clears_all_listeners {α : Type}
    (m : SubscriptionManager α) (q : Nat) (e : ProfilesError)
    (hq : m.subscription = some q) :
    onSubscriptionError m e
      = (⟨[], none, none⟩, true,
          m.subscribers.map (fun p => (p.2, ConnectionState.Disconnected)))
    ∧ onSubscriptionComplete m
      = (⟨[], none, none⟩, true,
          m.subscribers.map (fun p => (p.2, ConnectionState.Disconnected)))
    ∧ (∀ e' : ProfilesError, onSubscriptionError m e' = onSubscriptionError m e) := by
  refine ⟨?_, ?_, fun e' => rfl⟩ <;>
    simp [onSubscriptionError, onSubscriptionComplete,
      SubscriptionManager.connectionStatusChanged,
      SubscriptionManager.removeAllSubscribers, hq, List.map_map, Function.comp]

/-- Witness for C8 with two registered listeners. -/
theorem disconnect_clears_all_listeners_witness :
    (⟨[("a", (0 : Nat)), ("b", 1)], some 5, some 7⟩ : SubscriptionManager Nat).subscription
      = some 5
    ∧ onSubscriptionError
        (⟨[("a", (0 : Nat)), ("b", 1)], some 5, some 7⟩ : SubscriptionManager Nat)
        ProfilesError.serviceError
      = (⟨[], none, none⟩, true,
          [((0 : Nat), ConnectionState.Disconnected), (1, ConnectionState.Disconnected)]) := by
  refine ⟨rfl, ?_⟩
  have h := (disconnect_clears_all_listeners
    (⟨[("a", (0 : Nat)), ("b", 1)], some 5, some 7⟩ : SubscriptionManager Nat)
    5 ProfilesError.serviceError rfl).1
  simpa using h

/-! ## `updateSudo` (src/sudo/sudo-profiles-client.ts lines 289-374)

External collaborators are oracles: the S3 transfer client as a record of
functions, the GraphQL mutation as a function argument.  The blob cache
(localForage) is an association list threaded through explicitly.  The
`iv` argument stands for the fresh IVs drawn by `generateRandomData`. -/

/-- `SecureS3ObjectInput` (wire form of a private blob claim). -/
structure SecureS3ObjectInput where
  name : String
  version : Nat
  algorithm : String
  keyId : String
  bucket : String
  region : String
  key : String
  deriving DecidableEq, Repr

/-- The S3 transfer client contract (src/core/s3Client.ts): `upload`
returns the storage key, `download` the bytes, `delete` removes the
object; each can fail with its transfer error. -/
structure S3ClientModel where
  bucket : String
  region : String
  upload : List Nat → String → Except ProfilesError String
  download : String → Except ProfilesError (List Nat)
  delete : String → Except ProfilesError Unit

abbrev BlobCache := List (String × List Nat)

/-- `DefaultSudoProfilesClient.getObjectId`. -/
def getObjectId (sudoId nm : String) : String :=
  "sudo/" ++ sudoId ++ "/" ++ nm

def optToList {β : Type} : Option β → List β
  | none => []
  | some x => [x]

/-- One iteration of the `for (const [name, claim] of sudo.claims)` loop of
`updateSudo` (lines 306-355).  For a Private pending blob claim: write the
plaintext to the blob cache, replace the in-memory claim by one holding
only the cache key, encrypt under the current key id, upload; on a failure
of any step inside the `try` remove the just-written cache entry and
re-raise.  For a Private non-empty string claim: `createSecureString`.
Returns the produced wire inputs and the updated cache and claims map. -/
def processEntry (C : BlockCipher) (st : Store) (s3 : S3ClientModel)
    (keyId sudoId : String) (iv : List Nat) (cache : BlobCache)
    (claims : List (String × Claim)) (entry : String × Claim) :
    Except ProfilesError (Option SecureClaimInput × Option SecureS3ObjectInput)
      × BlobCache × List (String × Claim) :=
  let nm := entry.1
  let claim := entry.2
  if claim.visibility = Visibility.Private then
    match claim.value with
    | ClaimValue.blob _ (some data) =>
        let cacheId := getObjectId sudoId claim.name
        let cache1 := alSet cache cacheId data
        let claims1 := alSet claims nm
          ⟨nm, claim.visibility, ClaimValue.blob (some cacheId) none⟩
        match AesSecurityProvider.encrypt C st keyId iv data with
        | .error e => (.error e, alRemove cache1 cacheId, claims1)
        | .ok encryptedData =>
            match s3.upload encryptedData cacheId with
            | .error e => (.error e, alRemove cache1 cacheId, claims1)
            | .ok key =>
                (.ok (none, some ⟨nm, 1, AesCbcPkcs7Padding, keyId,
                    s3.bucket, s3.region, key⟩),
                  cache1, claims1)
    | ClaimValue.blob _ none => (.ok (none, none), cache, claims)
    | ClaimValue.str none => (.ok (none, none), cache, claims)
    | ClaimValue.str (some s) =>
        if s = "" then (.ok (none, none), cache, claims)
        else
          match createSecureString C st iv nm s with
          | .error e => (.error e, cache, claims)
          | .ok input => (.ok (some input, none), cache, claims)
  else (.ok (none, none), cache, claims)

/-- The whole claims loop of `updateSudo`: process the entries of the
original map in order, threading the blob cache and the (mutated) claims
map, accumulating the `SecureClaimInput` and `SecureS3ObjectInput`
arrays, stopping at the first thrown error. -/
def processClaims (C : BlockCipher) (st : Store) (s3 : S3ClientModel)
    (keyId sudoId : String) (iv : List Nat) :
    BlobCache → List (String × Claim) → List (String × Claim) →
    Except ProfilesError (List SecureClaimInput × List SecureS3ObjectInput)
      × BlobCache × List (String × Claim)
  | cache, claims, [] => (.ok ([], []), cache, claims)
  | cache, claims, e :: rest =>
      match processEntry C st s3 keyId sudoId iv cache claims e with
      | (.error err, cache', claims') => (.error err, cache', claims')
      | (.ok (sc, so), cache', claims') =>
          match processClaims C st s3 keyId sudoId iv cache' claims' rest with
          | (.error err, c2, m2) => (.error err, c2, m2)
          | (.ok (scs, sos), c2, m2) =>
              (.ok (optToList sc ++ scs, optToList so ++ sos), c2, m2)

/-- `UpdateSudoInput` (src/gen/graphql-types). -/
structure UpdateSudoInput where
  id : String
  expectedVersion : Nat
  claims : List SecureClaimInput
  objects : List SecureS3ObjectInput
  deriving DecidableEq, Repr

/-- The GraphQL wire form of a record (src/gen/graphql-types `Sudo`). -/
structure GqlSudo where
  id : String
  claims : List SecureClaimInput
  objects : List SecureS3ObjectInput
  metadata : List (String × String)
  createdAtEpochMs : Nat
  updatedAtEpochMs : Nat
  version : Nat
  deriving DecidableEq, Repr

deriving instance DecidableEq for Except

/-- Outcome of `updateSudo`: the thrown-or-returned record, the final blob
cache, the mutation input that was sent (if the call reached the
mutation) and the final in-memory claims map of the passed record. -/
structure UpdateResult where
  result : Except ProfilesError SudoRec
  blobCache : BlobCache
  sentInput : Option UpdateSudoInput
  claims : List (String × Claim)
  deriving DecidableEq, Repr

/-- `DefaultSudoProfilesClient.updateSudo` (lines 289-374): requires
`sudo.id` (`IllegalArgument`), a truthy current key id (`IllegalState`),
processes the claims, then issues the update mutation with
`expectedVersion = sudo.version`; on success refreshes id, version and
timestamps from the mutation payload.  (The trailing `queryCache.add`
call touches only the Apollo list cache, which is outside the state
modelled here.) -/
def DefaultSudoProfilesClient.updateSudo (C : BlockCipher) (st : Store)
    (s3 : S3ClientModel) (api : UpdateSudoInput → Except ProfilesError GqlSudo)
    (iv : List Nat) (cache : BlobCache) (sd : SudoRec) : UpdateResult :=
  match sd.id with
  | none => ⟨.error .illegalArgument, cache, none, sd.claims⟩
  | some sudoId =>
      match symmetricKeyGate st with
      | .error e => ⟨.error e, cache, none, sd.claims⟩
      | .ok keyId =>
          match processClaims C st s3 keyId sudoId iv cache sd.claims sd.claims with
          | (.error e, cache', claims') => ⟨.error e, cache', none, claims'⟩
          | (.ok (scs, sos), cache', claims') =>
              let input : UpdateSudoInput := ⟨sudoId, sd.version, scs, sos⟩
              match api input with
              | .error e => ⟨.error e, cache', some input, claims'⟩
              | .ok updated =>
                  ⟨.ok { sd with
                      id := some updated.id,
                      version := updated.version,
                      createdAt := updated.createdAtEpochMs,
                      updatedAt := updated.updatedAtEpochMs,
                      claims := claims' },
                    cache', some input, claims'⟩

/-- If a prefix of the claims loop succeeds and the remainder throws, the
whole loop throws with the remainder's error and final state. -/
theorem processClaims_append_error (C : BlockCipher) (st : Store) (s3 : S3ClientModel)
    (keyId sudoId : String) (iv : List Nat) (rest : List (String × Claim))
    (e : ProfilesError) :
    ∀ (pre : List (String × Claim)) (cache : BlobCache)
      (claims : List (String × Claim))
      (scs : List SecureClaimInput) (sos : List SecureS3ObjectInput)
      (c1 : BlobCache) (m1 : List (String × Claim))
      (c2 : BlobCache) (m2 : List (String × Claim)),
      processClaims C st s3 keyId sudoId iv cache claims pre = (.ok (scs, sos), c1, m1) →
      processClaims C st s3 keyId sudoId iv c1 m1 rest = (.error e, c2, m2) →
      processClaims C st s3 keyId sudoId iv cache claims (pre ++ rest)
        = (.error e, c2, m2) := by
  intro pre
  induction pre with
  | nil =>
      intro cache claims scs sos c1 m1 c2 m2 hpre hrest
      simp only [processClaims, Prod.mk.injEq] at hpre
      obtain ⟨-, hc, hm⟩ := hpre
      subst hc
      subst hm
      simpa using hrest
  | cons ehead pretail ih =>
      intro cache claims scs sos c1 m1 c2 m2 hpre hrest
      simp only [processClaims, List.cons_append] at hpre ⊢
      rcases hent : processEntry C st s3 keyId sudoId iv cache claims ehead with ⟨res, c', m'⟩
      simp only [hent] at hpre ⊢
      cases res with
      | error err => simp at hpre
      | ok scso =>
          obtain ⟨sc, so⟩ := scso
          simp only at hpre ⊢
          rcases hrec : processClaims C st s3 keyId sudoId iv c' m' pretail with ⟨res2, c2', m2'⟩
          rw [hrec] at hpre
          cases res2 with
          | error err2 => simp at hpre
          | ok scso2 =>
              obtain ⟨scs2, sos2⟩ := scso2
              simp only [Prod.mk.injEq, Except.ok.injEq] at hpre
              obtain ⟨-, hc, hm⟩ := hpre
              subst hc
              subst hm
              have hv := ih c' m' scs2 sos2 c2' m2' c2 m2 hrec hrest
              simp only [List.append_eq]
              simp only [hv]

/-- The claims loop on `pre ++ (nm, claim) :: post` where the prefix
succeeds and the pending blob claim's encrypt-or-upload step throws `e`:
the loop stops with `e`, the just-written cache entry for the claim's
cache key is removed again, and the in-memory claim has been replaced by
the cache-key-only stub. -/
theorem processClaims_blob_fail (C : BlockCipher) (st : Store) (s3 : S3ClientModel)
    (keyId sudoId : String) (iv : List Nat)
    (pre post : List (String × Claim)) (nm : String) (claim : Claim)
    (v : Option String) (data : List Nat)
    (cache : BlobCache) (claims : List (String × Claim))
    (cache1 : BlobCache) (claims1 : List (String × Claim))
    (scs : List SecureClaimInput) (sos : List SecureS3ObjectInput)
    (e : ProfilesError)
    (hvis : claim.visibility = Visibility.Private)
    (hval : claim.value = ClaimValue.blob v (some data))
    (hpre : processClaims C st s3 keyId sudoId iv cache claims pre
      = (.ok (scs, sos), cache1, claims1))
    (hfail : AesSecurityProvider.encrypt C st keyId iv data = .error e
      ∨ ∃ enc, AesSecurityProvider.encrypt C st keyId iv data = .ok enc
          ∧ s3.upload enc (getObjectId sudoId claim.name) = .error e) :
    processClaims C st s3 keyId sudoId iv cache claims (pre ++ (nm, claim) :: post)
      = (.error e,
         alRemove (alSet cache1 (getObjectId sudoId claim.name) data)
           (getObjectId sudoId claim.name),
         alSet claims1 nm
           ⟨nm, Visibility.Private,
             ClaimValue.blob (some (getObjectId sudoId claim.name)) none⟩) := by
  have hstep : processEntry C st s3 keyId sudoId iv cache1 claims1 (nm, claim)
      = (.error e,
         alRemove (alSet cache1 (getObjectId sudoId claim.name) data)
           (getObjectId sudoId claim.name),
         alSet claims1 nm
           ⟨nm, Visibility.Private,
             ClaimValue.blob (some (getObjectId sudoId claim.name)) none⟩) := by
    rcases hfail with hf | ⟨enc, he, hu⟩
    · simp only [processEntry, hvis, hval, if_pos, hf]
    · simp only [processEntry, hvis, hval, if_pos, he, hu]
  have hrest : processClaims C st s3 keyId sudoId iv cache1 claims1 ((nm, claim) :: post)
      = (.error e,
         alRemove (alSet cache1 (getObjectId sudoId claim.name) data)
           (getObjectId sudoId claim.name),
         alSet claims1 nm
           ⟨nm, Visibility.Private,
             ClaimValue.blob (some (getObjectId sudoId claim.name)) none⟩) := by
    simp only [processClaims, hstep]
  exact processClaims_append_error C st s3 keyId sudoId iv ((nm, claim) :: post) e
    pre cache claims scs sos cache1 claims1 _ _ hpre hrest

/-- C3: during `updateSudo`, when a Private blob claim with pending raw
bytes fails after the plaintext was written to the Blob Store (the
encryption or the upload throws), the just-written Blob Store entry for
that claim's cache key is removed, the original failure is re-raised
unchanged, and no update mutation is issued — the Blob Store holds no
entry under that claim's cache key. -/
theorem updateSudo_rollback_on_blob_failure (C : BlockCipher) (st : Store)
    (s3 : S3ClientModel) (api : UpdateSudoInput → Except ProfilesError GqlSudo)
    (iv : List Nat) (cache : BlobCache) (sd : SudoRec) (sudoId keyId : String)
    (pre post : List (String × Claim)) (nm : String) (claim : Claim)
    (v : Option String) (data : List Nat)
    (cache1 : BlobCache) (claims1 : List (String × Claim))
    (scs : List SecureClaimInput) (sos : List SecureS3ObjectInput)
    (e : ProfilesError)
    (hid : sd.id = some sudoId)
    (hgate : symmetricKeyGate st = .ok keyId)
    (hclaims : sd.claims = pre ++ (nm, claim) :: post)
    (hvis : claim.visibility = Visibility.Private)
    (hval : claim.value = ClaimValue.blob v (some data))
    (hpre : processClaims C st s3 keyId sudoId iv cache sd.claims pre
      = (.ok (scs, sos), cache1, claims1))
    (hfail : AesSecurityProvider.encrypt C st keyId iv data = .error e
      ∨ ∃ enc, AesSecurityProvider.encrypt C st keyId iv data = .ok enc
          ∧ s3.upload enc (getObjectId sudoId claim.name) = .error e) :
    (DefaultSudoProfilesClient.updateSudo C st s3 api iv cache sd).result = .error e
    ∧ (DefaultSudoProfilesClient.updateSudo C st s3 api iv cache sd).blobCache
        = alRemove (alSet cache1 (getObjectId sudoId claim.name) data)
            (getObjectId sudoId claim.name)
    ∧ alGet (DefaultSudoProfilesClient.updateSudo C st s3 api iv cache sd).blobCache
        (getObjectId sudoId claim.name) = none
    ∧ (DefaultSudoProfilesClient.updateSudo C st s3 api iv cache sd).sentInput = none := by
  have hall := processClaims_blob_fail C st s3 keyId sudoId iv pre post nm claim v data
    cache sd.claims cache1 claims1 scs sos e hvis hval hpre hfail
  rw [← hclaims] at hall
  simp only [DefaultSudoProfilesClient.updateSudo, hid, hgate, hall]
  simp [alGet_alRemove_self]

/-- Concrete external fixtures for witnesses. -/
def wS3 : S3ClientModel :=
  ⟨"bucket1", "region1", fun _ _ => .ok "key1", fun _ => .ok [], fun _ => .ok ()⟩

def wApi : UpdateSudoInput → Except ProfilesError GqlSudo := fun _ => .error .fatal

/-- A store whose current key id is `k1` but whose registry lacks the `k1`
bytes, so encryption fails with `KeyStoreException`. -/
def wStoreNoKey : Store := [(KEY_NAME_SYMMETRIC_KEY_ID, utf8Encode "k1")]

def wBlobClaim : Claim := ⟨"avatar", Visibility.Private, ClaimValue.blob none (some [1, 2])⟩

def wSudo : SudoRec := ⟨some "s1", 1, 0, 0, [], [("avatar", wBlobClaim)]⟩

/-- Witness for C3: the encryption step fails (missing key bytes), the
rollback erases the cache entry and no mutation is sent. -/
theorem updateSudo_rollback_on_blob_failure_witness :
    symmetricKeyGate wStoreNoKey = .ok "k1"
    ∧ ((DefaultSudoProfilesClient.updateSudo idBlockCipher wStoreNoKey wS3 wApi
          (List.replicate 16 0) [] wSudo).result = .error .keyStoreException
      ∧ (DefaultSudoProfilesClient.updateSudo idBlockCipher wStoreNoKey wS3 wApi
          (List.replicate 16 0) [] wSudo).blobCache
          = alRemove (alSet [] (getObjectId "s1" "avatar") [1, 2])
              (getObjectId "s1" "avatar")
      ∧ alGet (DefaultSudoProfilesClient.updateSudo idBlockCipher wStoreNoKey wS3 wApi
          (List.replicate 16 0) [] wSudo).blobCache (getObjectId "s1" "avatar") = none
      ∧ (DefaultSudoProfilesClient.updateSudo idBlockCipher wStoreNoKey wS3 wApi
          (List.replicate 16 0) [] wSudo).sentInput = none) :=
  ⟨by decide,
    updateSudo_rollback_on_blob_failure idBlockCipher wStoreNoKey wS3 wApi
      (List.replicate 16 0) [] wSudo "s1" "k1" [] [] "avatar" wBlobClaim none [1, 2]
      [] wSudo.claims [] [] .keyStoreException
      (by decide) (by decide) (by decide) (by decide) (by decide) (by decide)
      (Or.inl (by decide))⟩

/-- C9 (implicit): when `updateSudo` fails during the encrypt-or-upload
steps of a pending Private blob claim, the passed record's claims map has
already had that claim replaced — before the failing step — by a blob
value holding only the cache key and no raw bytes, and the rollback
removes the cache entry without restoring the original claim: after the
error the record references a Blob Store entry that no longer exists and
no longer carries the bytes needed to retry the upload. -/
theorem updateSudo_failure_strands_claim_stub (C : BlockCipher) (st : Store)
    (s3 : S3ClientModel) (api : UpdateSudoInput → Except ProfilesError GqlSudo)
    (iv : List Nat) (cache : BlobCache) (sd : SudoRec) (sudoId keyId : String)
    (pre post : List (String × Claim)) (nm : String) (claim : Claim)
    (v : Option String) (data : List Nat)
    (cache1 : BlobCache) (claims1 : List (String × Claim))
    (scs : List SecureClaimInput) (sos : List SecureS3ObjectInput)
    (e : ProfilesError)
    (hid : sd.id = some sudoId)
    (hgate : symmetricKeyGate st = .ok keyId)
    (hclaims : sd.claims = pre ++ (nm, claim) :: post)
    (hvis : claim.visibility = Visibility.Private)
    (hval : claim.value = ClaimValue.blob v (some data))
    (hpre : processClaims C st s3 keyId sudoId iv cache sd.claims pre
      = (.ok (scs, sos), cache1, claims1))
    (hfail : AesSecurityProvider.encrypt C st keyId iv data = .error e
      ∨ ∃ enc, AesSecurityProvider.encrypt C st keyId iv data = .ok enc
          ∧ s3.upload enc (getObjectId sudoId claim.name) = .error e) :
    (DefaultSudoProfilesClient.updateSudo C st s3 api iv cache sd).result = .error e
    ∧ alGet (DefaultSudoProfilesClient.updateSudo C st s3 api iv cache sd).claims nm
        = some ⟨nm, Visibility.Private,
            ClaimValue.blob (some (getObjectId sudoId claim.name)) none⟩
    ∧ alGet (DefaultSudoProfilesClient.updateSudo C st s3 api iv cache sd).blobCache
        (getObjectId sudoId claim.name) = none := by
  have hall := processClaims_blob_fail C st s3 keyId sudoId iv pre post nm claim v data
    cache sd.claims cache1 claims1 scs sos e hvis hval hpre hfail
  rw [← hclaims] at hall
  simp only [DefaultSudoProfilesClient.updateSudo, hid, hgate, hall]
  simp [alGet_alRemove_self, alGet_alSet_self]

/-- Witness for C9: after the failed update, the in-memory record holds
the cache-key stub with no raw bytes, and the cache entry is gone. -/
theorem updateSudo_failure_strands_claim_stub_witness :
    ((DefaultSudoProfilesClient.updateSudo idBlockCipher wStoreNoKey wS3 wApi
        (List.replicate 16 0) [] wSudo).result = .error .keyStoreException
    ∧ alGet (DefaultSudoProfilesClient.updateSudo idBlockCipher wStoreNoKey wS3 wApi
        (List.replicate 16 0) [] wSudo).claims "avatar"
        = some ⟨"avatar", Visibility.Private,
            ClaimValue.blob (some (getObjectId "s1" "avatar")) none⟩
    ∧ alGet (DefaultSudoProfilesClient.updateSudo idBlockCipher wStoreNoKey wS3 wApi
        (List.replicate 16 0) [] wSudo).blobCache (getObjectId "s1" "avatar") = none) :=
  updateSudo_failure_strands_claim_stub idBlockCipher wStoreNoKey wS3 wApi
    (List.replicate 16 0) [] wSudo "s1" "k1" [] [] "avatar" wBlobClaim none [1, 2]
    [] wSudo.claims [] [] .keyStoreException
    (by decide) (by decide) (by decide) (by decide) (by decide) (by decide)
    (Or.inl (by decide))

/-! ## Backend error mapping (src/global/error.ts) and the update
mutation's optimistic-concurrency behaviour -/

/-- An AppSync GraphQL error as consumed by `graphQLErrorsToClientError`. -/
structure AppSyncError where
  errorType : String
  message : String
  deriving DecidableEq, Repr

def GRAPHQL_ERROR_SUDO_NOT_FOUND : String := "sudoplatform.sudo.SudoNotFound"

def GRAPHQL_ERROR_POLICY_ERROR : String := "sudoplatform.PolicyFailed"

def GRAPHQL_ERROR_CONDITIONAL_CHECK_FAILED : String :=
  "DynamoDB:ConditionalCheckFailedException"

def GRAPHQL_ERROR_SERVER_ERROR : String := "sudoplatform.sudo.ServerError"

/-- `graphQLErrorsToClientError` (src/global/error.ts lines 62-78). -/
def graphQLErrorsToClientError (err : AppSyncError) : ProfilesError :=
  if err.errorType = GRAPHQL_ERROR_SUDO_NOT_FOUND then .sudoNotFound
  else if err.errorType = GRAPHQL_ERROR_POLICY_ERROR then .policyError
  else if err.errorType = GRAPHQL_ERROR_CONDITIONAL_CHECK_FAILED then .versionMismatch
  else if err.errorType = GRAPHQL_ERROR_SERVER_ERROR then .serviceError
  else .unknownGraphQL

abbrev RemoteStore := List (String × GqlSudo)

/-- Modelled from the spec: the Record Transport Adapter's backend is not
part of this repository; per §6 `updateRecord` "fails with a
version-mismatch signal on conditional-check failure" — a DynamoDB
conditional update applies the mutation only when the stored version
equals `expectedVersion` and otherwise fails with
`DynamoDB:ConditionalCheckFailedException`, leaving the record
unchanged. -/
def backendUpdateSudo (remote : RemoteStore) (input : UpdateSudoInput) :
    Except AppSyncError GqlSudo × RemoteStore :=
  match alGet remote input.id with
  | none => (.error ⟨GRAPHQL_ERROR_SUDO_NOT_FOUND, ""⟩, remote)
  | some r =>
      if r.version = input.expectedVersion then
        let r' := { r with
          version := r.version + 1,
          claims := input.claims,
          objects := input.objects }
        (.ok r', alSet remote input.id r')
      else (.error ⟨GRAPHQL_ERROR_CONDITIONAL_CHECK_FAILED, ""⟩, remote)

/-- `ApiClient.updateSudo` (src/client/apiClient.ts lines 115-140): a
GraphQL error reported by the backend is mapped through
`graphQLErrorsToClientError` and thrown. -/
def apiUpdateSudo (remote : RemoteStore) (input : UpdateSudoInput) :
    Except ProfilesError GqlSudo :=
  match (backendUpdateSudo remote input).1 with
  | .error gql => .error (graphQLErrorsToClientError gql)
  | .ok d => .ok d

/-- C4: `updateSudo` always issues its update mutation with
`expectedVersion` equal to the version of the record passed in (for any
transport); and when the backend's stored version differs, the backend
reports `DynamoDB:ConditionalCheckFailedException`, the call fails with
`VersionMismatch`, and the remote record is left unchanged. -/
theorem updateSudo_version_mismatch (C : BlockCipher) (st : Store)
    (s3 : S3ClientModel) (iv : List Nat) (cache : BlobCache) (sd : SudoRec)
    (sudoId keyId : String) (remote : RemoteStore) (r : GqlSudo)
    (scs : List SecureClaimInput) (sos : List SecureS3ObjectInput)
    (cache1 : BlobCache) (claims1 : List (String × Claim))
    (hid : sd.id = some sudoId)
    (hgate : symmetricKeyGate st = .ok keyId)
    (hproc : processClaims C st s3 keyId sudoId iv cache sd.claims sd.claims
      = (.ok (scs, sos), cache1, claims1))
    (hr : alGet remote sudoId = some r)
    (hv : r.version ≠ sd.version) :
    (∀ api : UpdateSudoInput → Except ProfilesError GqlSudo,
      (DefaultSudoProfilesClient.updateSudo C st s3 api iv cache sd).sentInput
        = some ⟨sudoId, sd.version, scs, sos⟩)
    ∧ (DefaultSudoProfilesClient.updateSudo C st s3 (apiUpdateSudo remote)
        iv cache sd).result = .error .versionMismatch
    ∧ (backendUpdateSudo remote ⟨sudoId, sd.version, scs, sos⟩).2 = remote := by
  have hback : backendUpdateSudo remote ⟨sudoId, sd.version, scs, sos⟩
      = (.error ⟨GRAPHQL_ERROR_CONDITIONAL_CHECK_FAILED, ""⟩, remote) := by
    simp [backendUpdateSudo, hr, hv]
  have hmap : graphQLErrorsToClientError ⟨GRAPHQL_ERROR_CONDITIONAL_CHECK_FAILED, ""⟩
      = .versionMismatch := by decide
  have happ : apiUpdateSudo remote ⟨sudoId, sd.version, scs, sos⟩
      = .error .versionMismatch := by
    simp [apiUpdateSudo, hback, hmap]
  refine ⟨?_, ?_, ?_⟩
  · intro api
    simp only [DefaultSudoProfilesClient.updateSudo, hid, hgate, hproc]
    cases api ⟨sudoId, sd.version, scs, sos⟩ <;> rfl
  · simp only [DefaultSudoProfilesClient.updateSudo, hid, hgate, hproc, happ]
  · rw [hback]

/-- A registry that holds the current alias `k1` *and* its key bytes. -/
def wStoreWithKey : Store :=
  [(KEY_NAME_SYMMETRIC_KEY_ID, utf8Encode "k1"), ("k1", [7])]

def wRemote : RemoteStore := [("s1", ⟨"s1", [], [], [], 0, 0, 5⟩)]

def wSudoNoClaims : SudoRec := ⟨some "s1", 2, 0, 0, [], []⟩

/-- Witness for C4: a stale expected version (2 against remote version 5)
yields `VersionMismatch` and an unchanged remote store. -/
theorem updateSudo_version_mismatch_witness :
    symmetricKeyGate wStoreWithKey = .ok "k1"
    ∧ (DefaultSudoProfilesClient.updateSudo idBlockCipher wStoreWithKey wS3
        (apiUpdateSudo wRemote) (List.replicate 16 0) [] wSudoNoClaims).result
        = .error .versionMismatch
    ∧ (backendUpdateSudo wRemote ⟨"s1", 2, [], []⟩).2 = wRemote :=
  ⟨by decide,
    (updateSudo_version_mismatch idBlockCipher wStoreWithKey wS3
      (List.replicate 16 0) [] wSudoNoClaims "s1" "k1" wRemote ⟨"s1", [], [], [], 0, 0, 5⟩
      [] [] [] [] (by decide) (by decide) (by decide) (by decide) (by decide)).2.1,
    (updateSudo_version_mismatch idBlockCipher wStoreWithKey wS3
      (List.replicate 16 0) [] wSudoNoClaims "s1" "k1" wRemote ⟨"s1", [], [], [], 0, 0, 5⟩
      [] [] [] [] (by decide) (by decide) (by decide) (by decide) (by decide)).2.2⟩

/-! ## `listSudos(CacheOnly)` and `deleteSudo`
(src/sudo/sudo-profiles-client.ts lines 403-411, 580-623, 764-848) -/

/-- The string-claim decryption loop of `processListSudos`: each wire
claim is decrypted through `processSecureClaim` (under its recorded key
id) and inserted into the claims map. -/
def decryptClaims (C : BlockCipher) (st : Store) :
    List SecureClaimInput → List (String × Claim) →
    Except ProfilesError (List (String × Claim))
  | [], m => .ok m
  | c :: rest, m =>
      match processSecureClaim C st c.name c.keyId c.base64Data with
      | .error e => .error e
      | .ok claim => decryptClaims C st rest (alSet m c.name claim)

/-- The `FetchOption.CacheOnly` branch of the `item.objects` loop
(lines 801-822): a blob claim is materialized from the blob cache and
inserted only when the cache has an entry under its cache key; a cache
miss silently omits the claim. -/
def materializeObjectsCacheOnly (cache : BlobCache) (sudoId : String) :
    List SecureS3ObjectInput → List (String × Claim) → List (String × Claim)
  | [], m => m
  | o :: rest, m =>
      match alGet cache (getObjectId sudoId o.name) with
      | none => materializeObjectsCacheOnly cache sudoId rest m
      | some entry =>
          materializeObjectsCacheOnly cache sudoId rest
            (alSet m o.name
              ⟨o.name, Visibility.Private,
                ClaimValue.blob (some (getObjectId sudoId o.name)) (some entry)⟩)

/-- One item of `processListSudos` with `processS3Object = true` under
`CacheOnly`. -/
def processItemCacheOnly (C : BlockCipher) (st : Store) (cache : BlobCache)
    (item : GqlSudo) : Except ProfilesError SudoRec :=
  match decryptClaims C st item.claims [] with
  | .error e => .error e
  | .ok m0 =>
      .ok ⟨some item.id, item.version, item.createdAtEpochMs, item.updatedAtEpochMs,
        item.metadata, materializeObjectsCacheOnly cache item.id item.objects m0⟩

def processListSudosCacheOnly (C : BlockCipher) (st : Store) (cache : BlobCache) :
    List GqlSudo → Except ProfilesError (List SudoRec)
  | [] => .ok []
  | item :: rest =>
      match processItemCacheOnly C st cache item with
      | .error e => .error e
      | .ok sd =>
          match processListSudosCacheOnly C st cache rest with
          | .error e => .error e
          | .ok sds => .ok (sd :: sds)

/-- `DefaultSudoProfilesClient.listSudos(FetchOption.CacheOnly)`
(lines 403-411): `items` is the Apollo query cache's snapshot; an empty
snapshot short-circuits to `[]`. -/
def DefaultSudoProfilesClient.listSudosCacheOnly (C : BlockCipher) (st : Store)
    (cache : BlobCache) (items : List GqlSudo) :
    Except ProfilesError (List SudoRec) :=
  if 0 < items.length then processListSudosCacheOnly C st cache items else .ok []

/-- `DefaultSudoProfilesClient.getSudo` (lines 619-623): find the id in
the cache-only list. -/
def DefaultSudoProfilesClient.getSudo (C : BlockCipher) (st : Store)
    (cache : BlobCache) (items : List GqlSudo) (id : String) :
    Except ProfilesError (Option SudoRec) :=
  match DefaultSudoProfilesClient.listSudosCacheOnly C st cache items with
  | .error e => .error e
  | .ok sds => .ok (sds.find? (fun s => decide (s.id = some id)))

/-- `claim.visibility == ClaimVisibility.Private && claim.value instanceof
BlobClaimValue` (lines 602-605). -/
def isPrivateBlob (c : Claim) : Bool :=
  decide (c.visibility = Visibility.Private)
    && (match c.value with
        | ClaimValue.blob _ _ => true
        | ClaimValue.str _ => false)

/-- The claim loop of `deleteSecureS3Object` (lines 602-616): for every
Private blob claim whose cache key has a cache entry, delete the remote
object and remove the cache entry.  Returns the final cache and the list
of object ids whose remote deletion was performed. -/
def deleteBlobClaims (s3 : S3ClientModel) (sudoId : String) :
    BlobCache → List (String × Claim) →
    (Except ProfilesError Unit) × BlobCache × List String
  | cache, [] => (.ok (), cache, [])
  | cache, (nm, c) :: rest =>
      if isPrivateBlob c then
        match alGet cache (getObjectId sudoId nm) with
        | none => deleteBlobClaims s3 sudoId cache rest
        | some _ =>
            match s3.delete (getObjectId sudoId nm) with
            | .error e => (.error e, cache, [])
            | .ok _ =>
                match deleteBlobClaims s3 sudoId
                    (alRemove cache (getObjectId sudoId nm)) rest with
                | (res, cache', dels) => (res, cache', getObjectId sudoId nm :: dels)
      else deleteBlobClaims s3 sudoId cache rest

/-- Outcome of `deleteSudo`: result, final blob cache, the object ids
deleted from S3, and the delete mutation input (id, expectedVersion) if
one was issued. -/
structure DeleteResult where
  result : Except ProfilesError Unit
  blobCache : BlobCache
  s3Deletes : List String
  sentDelete : Option (String × Nat)
  deriving DecidableEq, Repr

/-- `DefaultSudoProfilesClient.deleteSudo` (lines 580-594) with
`deleteSecureS3Object` (lines 596-617) inlined: requires `sudo.id`
(`IllegalArgument`), looks the record up in the cache-only list
(`SudoNotFound` when absent), cleans up each Private blob claim's remote
object and cache entry, then issues the delete mutation with
`expectedVersion = sudo.version`. -/
def DefaultSudoProfilesClient.deleteSudo (C : BlockCipher) (st : Store)
    (s3 : S3ClientModel) (cache : BlobCache) (items : List GqlSudo)
    (deleteApi : String → Nat → Except ProfilesError Unit) (sd : SudoRec) :
    DeleteResult :=
  match sd.id with
  | none => ⟨.error .illegalArgument, cache, [], none⟩
  | some sudoId =>
      match DefaultSudoProfilesClient.getSudo C st cache items sudoId with
      | .error e => ⟨.error e, cache, [], none⟩
      | .ok none => ⟨.error .sudoNotFound, cache, [], none⟩
      | .ok (some found) =>
          match deleteBlobClaims s3 sudoId cache found.claims with
          | (.error e, cache', dels) => ⟨.error e, cache', dels, none⟩
          | (.ok _, cache', dels) =>
              match deleteApi sudoId sd.version with
              | .error e => ⟨.error e, cache', dels, some (sudoId, sd.version)⟩
              | .ok _ => ⟨.ok (), cache', dels, some (sudoId, sd.version)⟩

/-- C5: `deleteSudo` on a record whose id is set but absent from the
cache-only list snapshot fails with `SudoNotFound`, performs no remote
object deletions, no delete mutation, and leaves the blob cache
untouched. -/
theorem deleteSudo_absent_from_cache_not_found (C : BlockCipher) (st : Store)
    (s3 : S3ClientModel) (cache : BlobCache) (items : List GqlSudo)
    (deleteApi : String → Nat → Except ProfilesError Unit)
    (sd : SudoRec) (sudoId : String) (sds : List SudoRec)
    (hid : sd.id = some sudoId)
    (hlist : DefaultSudoProfilesClient.listSudosCacheOnly C st cache items = .ok sds)
    (habsent : ∀ s ∈ sds, s.id ≠ some sudoId) :
    DefaultSudoProfilesClient.deleteSudo C st s3 cache items deleteApi sd
      = ⟨.error .sudoNotFound, cache, [], none⟩ := by
  have hfind : sds.find? (fun s => decide (s.id = some sudoId)) = none := by
    apply List.find?_eq_none.mpr
    intro s hs
    simp [habsent s hs]
  simp only [DefaultSudoProfilesClient.deleteSudo, hid,
    DefaultSudoProfilesClient.getSudo, hlist, hfind]

/-- Witness for C5 on an empty snapshot. -/
theorem deleteSudo_absent_from_cache_not_found_witness :
    wSudoNoClaims.id = some "s1"
    ∧ DefaultSudoProfilesClient.deleteSudo idBlockCipher wStoreWithKey wS3 []
        [] (fun _ _ => .ok ()) wSudoNoClaims
      = ⟨.error .sudoNotFound, [], [], none⟩ :=
  ⟨by decide,
    deleteSudo_absent_from_cache_not_found idBlockCipher wStoreWithKey wS3 [] []
      (fun _ _ => .ok ()) wSudoNoClaims "s1" []
      (by decide) (by decide) (by simp)⟩

/-- Every blob-valued claim of `m` has a blob-cache entry under its cache
key — the invariant tying a cache-only snapshot to the blob store. -/
def blobClaimsCached (cache : BlobCache) (sudoId : String)
    (m : List (String × Claim)) : Prop :=
  ∀ p ∈ m, ∀ bv bf, p.2.value = ClaimValue.blob bv bf →
    ∃ entry, alGet cache (getObjectId sudoId p.1) = some entry

theorem processSecureClaim_value (C : BlockCipher) (st : Store)
    (nm keyId : String) (d : List Nat) (claim : Claim)
    (h : processSecureClaim C st nm keyId d = .ok claim) :
    ∃ s, claim.value = ClaimValue.str (some s) := by
  unfold processSecureClaim at h
  cases hd : AesSecurityProvider.decrypt C st keyId d with
  | error e => rw [hd] at h; exact absurd h (by simp)
  | ok dd =>
      rw [hd] at h
      simp only [Except.ok.injEq] at h
      exact ⟨utf8Decode dd, by rw [← h]⟩

theorem decryptClaims_preserves_cached (C : BlockCipher) (st : Store)
    (cache : BlobCache) (sudoId : String) :
    ∀ (cls : List SecureClaimInput) (m m' : List (String × Claim)),
      blobClaimsCached cache sudoId m →
      decryptClaims C st cls m = .ok m' →
      blobClaimsCached cache sudoId m' := by
  intro cls
  induction cls with
  | nil =>
      intro m m' hm h
      simp only [decryptClaims, Except.ok.injEq] at h
      exact h ▸ hm
  | cons c rest ih =>
      intro m m' hm h
      simp only [decryptClaims] at h
      cases hp : processSecureClaim C st c.name c.keyId c.base64Data with
      | error e => rw [hp] at h; exact absurd h (by simp)
      | ok claim =>
          rw [hp] at h
          refine ih _ m' ?_ h
          intro p hpmem bv bf hbv
          rcases mem_alSet hpmem with heq | hold
          · obtain ⟨s, hs⟩ := processSecureClaim_value C st c.name c.keyId c.base64Data claim hp
            rw [heq] at hbv
            simp only [hs] at hbv
            exact absurd hbv (by simp)
          · exact hm p hold bv bf hbv

theorem materializeObjects_preserves_cached (cache : BlobCache) (sudoId : String) :
    ∀ (objs : List SecureS3ObjectInput) (m : List (String × Claim)),
      blobClaimsCached cache sudoId m →
      blobClaimsCached cache sudoId (materializeObjectsCacheOnly cache sudoId objs m) := by
  intro objs
  induction objs with
  | nil => intro m hm; simpa [materializeObjectsCacheOnly] using hm
  | cons o rest ih =>
      intro m hm
      simp only [materializeObjectsCacheOnly]
      cases halg : alGet cache (getObjectId sudoId o.name) with
      | none => exact ih m hm
      | some entry =>
          refine ih _ ?_
          intro p hpmem bv bf hbv
          rcases mem_alSet hpmem with heq | hold
          · rw [heq]
            exact ⟨entry, halg⟩
          · exact hm p hold bv bf hbv

theorem processItemCacheOnly_spec (C : BlockCipher) (st : Store)
    (cache : BlobCache) (item : GqlSudo) (sd' : SudoRec)
    (h : processItemCacheOnly C st cache item = .ok sd') :
    sd'.id = some item.id ∧ blobClaimsCached cache item.id sd'.claims := by
  unfold processItemCacheOnly at h
  cases hdc : decryptClaims C st item.claims [] with
  | error e => rw [hdc] at h; exact absurd h (by simp)
  | ok m0 =>
      rw [hdc] at h
      simp only [Except.ok.injEq] at h
      have hm0 : blobClaimsCached cache item.id m0 :=
        decryptClaims_preserves_cached C st cache item.id item.claims [] m0
          (by intro p hp; simp at hp) hdc
      constructor
      · rw [← h]
      · rw [← h]
        exact materializeObjects_preserves_cached cache item.id item.objects m0 hm0

theorem processListSudosCacheOnly_mem (C : BlockCipher) (st : Store)
    (cache : BlobCache) :
    ∀ (items : List GqlSudo) (sds : List SudoRec),
      processListSudosCacheOnly C st cache items = .ok sds →
      ∀ s ∈ sds, ∃ item ∈ items, processItemCacheOnly C st cache item = .ok s := by
  intro items
  induction items with
  | nil =>
      intro sds h s hs
      simp only [processListSudosCacheOnly, Except.ok.injEq] at h
      rw [← h] at hs
      simp at hs
  | cons item rest ih =>
      intro sds h s hs
      simp only [processListSudosCacheOnly] at h
      cases hit : processItemCacheOnly C st cache item with
      | error e => rw [hit] at h; exact absurd h (by simp)
      | ok sd1 =>
          rw [hit] at h
          cases hrest : processListSudosCacheOnly C st cache rest with
          | error e => rw [hrest] at h; exact absurd h (by simp)
          | ok sds1 =>
              rw [hrest] at h
              simp only [Except.ok.injEq] at h
              rw [← h] at hs
              rcases List.mem_cons.mp hs with hs1 | hs1
              · exact ⟨item, List.mem_cons_self _ _, hs1 ▸ hit⟩
              · obtain ⟨it2, hit2, hok2⟩ := ih sds1 hrest s hs1
                exact ⟨it2, List.mem_cons_of_mem _ hit2, hok2⟩

theorem listSudosCacheOnly_mem (C : BlockCipher) (st : Store) (cache : BlobCache)
    (items : List GqlSudo) (sds : List SudoRec)
    (h : DefaultSudoProfilesClient.listSudosCacheOnly C st cache items = .ok sds) :
    ∀ s ∈ sds, ∃ item ∈ items, processItemCacheOnly C st cache item = .ok s := by
  unfold DefaultSudoProfilesClient.listSudosCacheOnly at h
  by_cases hlen : 0 < items.length
  · rw [if_pos hlen] at h
    exact processListSudosCacheOnly_mem C st cache items sds h
  · rw [if_neg hlen] at h
    simp only [Except.ok.injEq] at h
    intro s hs
    rw [← h] at hs
    simp at hs

/-- The cleanup loop under an S3 oracle whose deletes succeed: it
succeeds, it never adds cache entries, and every Private blob claim ends
with no cache entry under its cache key, with the remote object deleted
whenever the entry was present. -/
theorem deleteBlobClaims_spec (s3 : S3ClientModel) (sudoId : String)
    (hok : ∀ kk, s3.delete kk = .ok ()) :
    ∀ (entries : List (String × Claim)) (cache : BlobCache),
      (deleteBlobClaims s3 sudoId cache entries).1 = .ok ()
      ∧ (∀ key, alGet cache key = none →
          alGet (deleteBlobClaims s3 sudoId cache entries).2.1 key = none)
      ∧ ∀ p ∈ entries, p.2.visibility = Visibility.Private →
          ∀ bv bf, p.2.value = ClaimValue.blob bv bf →
            alGet (deleteBlobClaims s3 sudoId cache entries).2.1
              (getObjectId sudoId p.1) = none
            ∧ (alGet cache (getObjectId sudoId p.1) ≠ none →
                getObjectId sudoId p.1 ∈ (deleteBlobClaims s3 sudoId cache entries).2.2) := by
  intro entries
  induction entries with
  | nil =>
      intro cache
      refine ⟨rfl, fun key h => h, ?_⟩
      intro p hp
      simp at hp
  | cons hd rest ih =>
      intro cache
      obtain ⟨nm, c⟩ := hd
      by_cases hpb : isPrivateBlob c = true
      · cases halg : alGet cache (getObjectId sudoId nm) with
        | none =>
            simp only [deleteBlobClaims, hpb, if_true, halg]
            obtain ⟨ih1, ih2, ih3⟩ := ih cache
            refine ⟨ih1, ih2, ?_⟩
            intro p hp hvis bv bf hbv
            rcases List.mem_cons.mp hp with heq | hmem
            · subst heq
              exact ⟨ih2 _ halg, fun hne => absurd halg hne⟩
            · exact ih3 p hmem hvis bv bf hbv
        | some entry =>
            have hdel := hok (getObjectId sudoId nm)
            simp only [deleteBlobClaims, hpb, if_true, halg, hdel]
            rcases hrec : deleteBlobClaims s3 sudoId
                (alRemove cache (getObjectId sudoId nm)) rest with ⟨res, cache', dels⟩
            obtain ⟨ih1, ih2, ih3⟩ := ih (alRemove cache (getObjectId sudoId nm))
            rw [hrec] at ih1 ih2 ih3
            simp only at ih1 ih2 ih3 ⊢
            have hmono : ∀ key, alGet cache key = none → alGet cache' key = none := by
              intro key hkey
              by_cases hk : key = getObjectId sudoId nm
              · subst hk
                exact ih2 _ (alGet_alRemove_self _ _)
              · exact ih2 key ((alGet_alRemove_ne _ _ _ hk).trans hkey)
            refine ⟨ih1, hmono, ?_⟩
            intro p hp hvis bv bf hbv
            rcases List.mem_cons.mp hp with heq | hmem
            · subst heq
              refine ⟨ih2 _ (alGet_alRemove_self _ _), fun _ => List.mem_cons_self _ _⟩
            · have hfirst := (ih3 p hmem hvis bv bf hbv).1
              refine ⟨hfirst, ?_⟩
              intro hne
              by_cases hk : getObjectId sudoId p.1 = getObjectId sudoId nm
              · rw [hk]
                exact List.mem_cons_self _ _
              · have : alGet (alRemove cache (getObjectId sudoId nm))
                    (getObjectId sudoId p.1) ≠ none := by
                  rw [alGet_alRemove_ne _ _ _ hk]
                  exact hne
                exact List.mem_cons_of_mem _ ((ih3 p hmem hvis bv bf hbv).2 this)
      · simp only [deleteBlobClaims, hpb, if_false]
        obtain ⟨ih1, ih2, ih3⟩ := ih cache
        refine ⟨ih1, ih2, ?_⟩
        intro p hp hvis bv bf hbv
        rcases List.mem_cons.mp hp with heq | hmem
        · subst heq
          have hv2 : c.visibility = Visibility.Private := hvis
          have hb2 : c.value = ClaimValue.blob bv bf := hbv
          exact absurd (by simp [isPrivateBlob, hv2, hb2]) hpb
        · exact ih3 p hmem hvis bv bf hbv

/-- C6: `deleteSudo` on a record present in the cache-only snapshot
deletes, for each Private blob claim of the found record, the remote
object and the Blob Store entry under its cache key, and then issues the
delete mutation with `expectedVersion = record.version`; afterwards the
Blob Store holds no entry for any blob claim of that record id. -/
theorem deleteSudo_cleans_blob_claims (C : BlockCipher) (st : Store)
    (s3 : S3ClientModel) (cache : BlobCache) (items : List GqlSudo)
    (deleteApi : String → Nat → Except ProfilesError Unit)
    (sd : SudoRec) (sudoId : String) (sds : List SudoRec) (found : SudoRec)
    (hid : sd.id = some sudoId)
    (hlist : DefaultSudoProfilesClient.listSudosCacheOnly C st cache items = .ok sds)
    (hfind : sds.find? (fun s => decide (s.id = some sudoId)) = some found)
    (hs3 : ∀ kk, s3.delete kk = .ok ())
    (hapi : ∀ i v, deleteApi i v = .ok ()) :
    (DefaultSudoProfilesClient.deleteSudo C st s3 cache items deleteApi sd).result
      = .ok ()
    ∧ (DefaultSudoProfilesClient.deleteSudo C st s3 cache items deleteApi sd).sentDelete
      = some (sudoId, sd.version)
    ∧ ∀ p ∈ found.claims, p.2.visibility = Visibility.Private →
        ∀ bv bf, p.2.value = ClaimValue.blob bv bf →
          alGet (DefaultSudoProfilesClient.deleteSudo C st s3 cache items deleteApi sd).blobCache
            (getObjectId sudoId p.1) = none
          ∧ getObjectId sudoId p.1
              ∈ (DefaultSudoProfilesClient.deleteSudo C st s3 cache items deleteApi sd).s3Deletes := by
  have hfound_mem : found ∈ sds := List.mem_of_find?_eq_some hfind
  have hfound_id : found.id = some sudoId := by
    have h := List.find?_some hfind
    simpa using h
  obtain ⟨item, hitem_mem, hitem_ok⟩ :=
    listSudosCacheOnly_mem C st cache items sds hlist found hfound_mem
  obtain ⟨hid', hcached⟩ := processItemCacheOnly_spec C st cache item found hitem_ok
  have hitem_id : item.id = sudoId := by
    rw [hid'] at hfound_id
    exact Option.some.inj hfound_id
  have hcached' : blobClaimsCached cache sudoId found.claims := hitem_id ▸ hcached
  rcases hrec : deleteBlobClaims s3 sudoId cache found.claims with ⟨res, cache', dels⟩
  obtain ⟨hres, -, hspec⟩ := deleteBlobClaims_spec s3 sudoId hs3 found.claims cache
  rw [hrec] at hres hspec
  simp only at hres hspec
  subst hres
  have hdelete : DefaultSudoProfilesClient.deleteSudo C st s3 cache items deleteApi sd
      = ⟨.ok (), cache', dels, some (sudoId, sd.version)⟩ := by
    simp only [DefaultSudoProfilesClient.deleteSudo, hid,
      DefaultSudoProfilesClient.getSudo, hlist, hfind, hrec, hapi]
  rw [hdelete]
  refine ⟨rfl, rfl, ?_⟩
  intro p hp hvis bv bf hbv
  obtain ⟨entry, hentry⟩ := hcached' p hp bv bf hbv
  have hne : alGet cache (getObjectId sudoId p.1) ≠ none := by
    rw [hentry]
    exact Option.some_ne_none entry
  obtain ⟨h1, h2⟩ := hspec p hp hvis bv bf hbv
  exact ⟨h1, h2 hne⟩

/-- A snapshot with one record `s1` carrying one blob claim whose
plaintext sits in the blob cache. -/
def wGqlItem : GqlSudo :=
  ⟨"s1", [], [⟨"avatar", 1, AesCbcPkcs7Padding, "k1", "bucket1", "region1", "key1"⟩],
    [], 0, 0, 1⟩

def wBlobCache : BlobCache := [(getObjectId "s1" "avatar", [9, 9])]

/-- Witness for C6 on that snapshot: the delete succeeds, sends
`expectedVersion = 2`, and removes the blob cache entry. -/
theorem deleteSudo_cleans_blob_claims_witness :
    (DefaultSudoProfilesClient.deleteSudo idBlockCipher wStoreWithKey wS3 wBlobCache
        [wGqlItem] (fun _ _ => .ok ()) wSudoNoClaims).result = .ok ()
    ∧ (DefaultSudoProfilesClient.deleteSudo idBlockCipher wStoreWithKey wS3 wBlobCache
        [wGqlItem] (fun _ _ => .ok ()) wSudoNoClaims).sentDelete = some ("s1", 2) :=
  have h := deleteSudo_cleans_blob_claims idBlockCipher wStoreWithKey wS3 wBlobCache
    [wGqlItem] (fun _ _ => .ok ()) wSudoNoClaims "s1"
    [⟨some "s1", 1, 0, 0, [],
      [("avatar", ⟨"avatar", Visibility.Private,
        ClaimValue.blob (some (getObjectId "s1" "avatar")) (some [9, 9])⟩)]⟩]
    ⟨some "s1", 1, 0, 0, [],
      [("avatar", ⟨"avatar", Visibility.Private,
        ClaimValue.blob (some (getObjectId "s1" "avatar")) (some [9, 9])⟩)]⟩
    (by decide) (by decide) (by decide) (fun kk => rfl) (fun i v => rfl)
  ⟨h.1, h.2.1⟩
